import Mathlib

/-
Verification of the literature-evidence resolution engine of CommunityMech.

Python strings are embedded as `List Char`; CPython string primitives
(`startswith`, `in`, `replace`, `split`, `strip`, `lower`) are given
executable definitions below, and each Python function under scrutiny is
translated clause by clause from the source files named in its doc comment.
Floating-point scores are embedded as rationals: every constant involved
(5.0, 2.0, 1.0, 0.5, 0.3, 1.0 and the 0.95 threshold) and every sum taken
at a comparison boundary is exactly representable, so the control flow of
the embedded functions agrees with the float control flow of the source.
-/

/-! ### Python string primitives -/

/-- Whitespace recognized by Python's `str.split`, `str.strip` and `\s`
(ASCII fragment: space, tab, newline, carriage return, vertical tab, form feed). -/
def isPySpace (c : Char) : Bool :=
  c = ' ' || c = '\t' || c = '\n' || c = '\r' || c = Char.ofNat 11 || c = Char.ofNat 12

/-- Python `str.lower`, character by character. -/
def pyLower (s : List Char) : List Char :=
  s.map Char.toLower

/-- Python `str.startswith`. -/
def startsWithL : List Char → List Char → Bool
  | [], _ => true
  | _ :: _, [] => false
  | p :: ps, c :: cs => p = c && startsWithL ps cs

/-- Python's substring test `needle in hay`. -/
def containsSub (needle : List Char) : List Char → Bool
  | [] => startsWithL needle []
  | c :: t => if startsWithL needle (c :: t) then true else containsSub needle t

/-- Python `str.strip()` (no argument): remove leading and trailing whitespace. -/
def pyStrip (s : List Char) : List Char :=
  ((s.dropWhile isPySpace).reverse.dropWhile isPySpace).reverse

/-- Fuel-indexed worker for `replaceAll`: each step consumes at least one
character of the remaining string, so `s.length + 1` units of fuel always
suffice and the fuel-exhausted branch is unreachable. Structural recursion on
the fuel keeps the definition kernel-computable. -/
def replaceAllFuel (pat repl : List Char) : Nat → List Char → List Char
  | 0, s => s
  | _ + 1, [] => if pat = [] then repl else []
  | fuel + 1, c :: rest =>
    if pat ≠ [] ∧ startsWithL pat (c :: rest) then
      repl ++ replaceAllFuel pat repl fuel ((c :: rest).drop pat.length)
    else if pat = [] then
      repl ++ c :: replaceAllFuel pat repl fuel rest
    else
      c :: replaceAllFuel pat repl fuel rest

/-- Python `str.replace pat repl`: replace every non-overlapping occurrence,
scanning left to right (an empty pattern inserts `repl` at every position,
as in CPython). -/
def replaceAll (pat repl s : List Char) : List Char :=
  replaceAllFuel pat repl (s.length + 1) s

/-- Worker for `pySplitWs`: `curRev` is the current word, reversed. -/
def pySplitWsAux (curRev : List Char) : List Char → List (List Char)
  | [] => if curRev = [] then [] else [curRev.reverse]
  | c :: rest =>
    if isPySpace c then
      if curRev = [] then pySplitWsAux [] rest
      else curRev.reverse :: pySplitWsAux [] rest
    else pySplitWsAux (c :: curRev) rest

/-- Python `str.split()` (no argument): split on whitespace runs, no empty words. -/
def pySplitWs (s : List Char) : List (List Char) :=
  pySplitWsAux [] s

/-- Python `" ".join ws`. -/
def joinSpace : List (List Char) → List Char
  | [] => []
  | [w] => w
  | w :: ws => w ++ ' ' :: joinSpace ws

/-- The whitespace normalization `" ".join(s.split())` used throughout the repo. -/
def wsNormalize (s : List Char) : List Char :=
  joinSpace (pySplitWs s)

/-- Python `str.isdigit` restricted to ASCII decimal digits. -/
def pyIsDigit (s : List Char) : Bool :=
  s ≠ [] && s.all Char.isDigit

/-! ### Reference Normalizer

`scripts/fix_reference_formats.py`, `fix_reference` (lines 17-41), and
`scripts/curate_evidence_with_pdfs.py`,
`EvidenceCurator.validate_reference_format` (lines 59-77). -/

/-- The regex `^PMC\d+$` of `fix_reference` / `validate_reference_format`:
the whole string is `PMC` followed by one or more digits. -/
def matchPMCFull (s : List Char) : Bool :=
  startsWithL ['P', 'M', 'C'] s && pyIsDigit (s.drop 3)

/-- Helper for `^10\.\d+/`: zero or more digits followed by a `/`. -/
def digitsThenSlash : List Char → Bool
  | [] => false
  | c :: r => if c.isDigit then digitsThenSlash r else c = '/'

/-- Helper for `^10\.\d+/`: one or more digits followed by a `/`. -/
def matchDigitsPlusSlash : List Char → Bool
  | [] => false
  | c :: r => c.isDigit && digitsThenSlash r

/-- The regex `re.match(r'^10\.\d+/', s)`: the string starts with `10.`,
one or more digits, then a slash. -/
def matchBareDOI (s : List Char) : Bool :=
  startsWithL ['1', '0', '.'] s && matchDigitsPlusSlash (s.drop 3)

/-- `fix_reference` (scripts/fix_reference_formats.py lines 17-41): the four
sequential fix-ups (`pmid:` → `PMID:`, bare `PMC\d+` → `PMID:`-prefixed,
`DOI:` → `doi:`, bare `10.<digits>/` → `doi:`-prefixed), returning the fixed
string and whether it changed. -/
def fix_reference (ref : List Char) : List Char × Bool :=
  let r1 := if startsWithL ['p', 'm', 'i', 'd', ':'] ref then
    'P' :: 'M' :: 'I' :: 'D' :: ':' :: ref.drop 5 else ref
  let r2 := if matchPMCFull r1 then 'P' :: 'M' :: 'I' :: 'D' :: ':' :: r1 else r1
  let r3 := if startsWithL ['D', 'O', 'I', ':'] r2 then
    'd' :: 'o' :: 'i' :: ':' :: r2.drop 4 else r2
  let r4 := if matchBareDOI r3 then 'd' :: 'o' :: 'i' :: ':' :: r3 else r3
  (r4, decide (r4 ≠ ref))

/-- The schema pattern `re.match(r"^(PMID:|doi:|bioproject:)", reference)` of
`validate_reference_format`. -/
def matchesSchemaRef (reference : List Char) : Bool :=
  startsWithL ['P', 'M', 'I', 'D', ':'] reference ||
  startsWithL ['d', 'o', 'i', ':'] reference ||
  startsWithL ['b', 'i', 'o', 'p', 'r', 'o', 'j', 'e', 'c', 't', ':'] reference

/-- `EvidenceCurator.validate_reference_format`
(scripts/curate_evidence_with_pdfs.py lines 59-77): returns
`(is_valid, suggested_fix)`; unrecognized shapes yield `(false, none)`. -/
def validate_reference_format (reference : List Char) : Bool × Option (List Char) :=
  if matchesSchemaRef reference then (true, some reference)
  else if startsWithL ['p', 'm', 'i', 'd', ':'] reference then
    (false, some ('P' :: 'M' :: 'I' :: 'D' :: ':' :: reference.drop 5))
  else if startsWithL ['D', 'O', 'I', ':'] reference then
    (false, some ('d' :: 'o' :: 'i' :: ':' :: reference.drop 4))
  else if matchBareDOI reference then
    (false, some ('d' :: 'o' :: 'i' :: ':' :: reference))
  else if matchPMCFull reference then
    (false, some ('P' :: 'M' :: 'I' :: 'D' :: ':' :: reference))
  else (false, none)

/-- The reference clause of `EvidenceCurator._audit_evidence_item`
(scripts/curate_evidence_with_pdfs.py lines 349-361): an invalid reference is
reported as an `INVALID_REFERENCE_FORMAT` issue, with severity `ERROR` when no
fix could be suggested and `WARNING` otherwise. -/
def auditReferenceIssue (reference : List Char) : Option (String × String) :=
  let v := validate_reference_format reference
  if v.1 then none
  else some ("INVALID_REFERENCE_FORMAT", if v.2 = none then "ERROR" else "WARNING")

/-! ### Facts about the Reference Normalizer (claims C2, C8) -/

lemma startsWithL_eq_true_iff (p : List Char) :
    ∀ s, startsWithL p s = true ↔ ∃ t, s = p ++ t := by
  induction p with
  | nil => intro s; simp [startsWithL]
  | cons a ps ih =>
    intro s
    cases s with
    | nil => simp [startsWithL]
    | cons c cs =>
      simp only [startsWithL, Bool.and_eq_true, decide_eq_true_eq, ih cs, List.cons_append]
      constructor
      · rintro ⟨hac, t, rfl⟩
        exact ⟨t, by rw [hac]⟩
      · rintro ⟨t, hEq⟩
        injection hEq with h1 h2
        exact ⟨h1.symm, t, h2⟩

lemma matchPMCFull_decomp (r : List Char) (h : matchPMCFull r = true) :
    ∃ t, r = 'P' :: 'M' :: 'C' :: t ∧ pyIsDigit t = true := by
  unfold matchPMCFull at h
  rw [Bool.and_eq_true] at h
  obtain ⟨t, rfl⟩ := (startsWithL_eq_true_iff _ _).mp h.1
  refine ⟨t, rfl, ?_⟩
  simpa using h.2

lemma matchBareDOI_decomp (r : List Char) (h : matchBareDOI r = true) :
    ∃ t, r = '1' :: '0' :: '.' :: t ∧ matchDigitsPlusSlash t = true := by
  unfold matchBareDOI at h
  rw [Bool.and_eq_true] at h
  obtain ⟨t, rfl⟩ := (startsWithL_eq_true_iff _ _).mp h.1
  refine ⟨t, rfl, ?_⟩
  simpa using h.2

lemma fix_reference_PMID_fixed (l : List Char) :
    fix_reference ('P' :: 'M' :: 'I' :: 'D' :: ':' :: l)
      = ('P' :: 'M' :: 'I' :: 'D' :: ':' :: l, false) := by
  simp [fix_reference, matchPMCFull, matchBareDOI, startsWithL]

lemma fix_reference_doi_fixed (l : List Char) :
    fix_reference ('d' :: 'o' :: 'i' :: ':' :: l)
      = ('d' :: 'o' :: 'i' :: ':' :: l, false) := by
  simp [fix_reference, matchPMCFull, matchBareDOI, startsWithL]

lemma fix_reference_pmid_lower (t : List Char) :
    fix_reference ('p' :: 'm' :: 'i' :: 'd' :: ':' :: t)
      = ('P' :: 'M' :: 'I' :: 'D' :: ':' :: t, true) := by
  simp [fix_reference, matchPMCFull, matchBareDOI, startsWithL]

lemma fix_reference_DOI_upper (t : List Char) :
    fix_reference ('D' :: 'O' :: 'I' :: ':' :: t)
      = ('d' :: 'o' :: 'i' :: ':' :: t, true) := by
  simp [fix_reference, matchPMCFull, matchBareDOI, startsWithL]

lemma fix_reference_PMC (r : List Char) (h : matchPMCFull r = true) :
    fix_reference r = ('P' :: 'M' :: 'I' :: 'D' :: ':' :: r, true) := by
  obtain ⟨t, rfl, hd⟩ := matchPMCFull_decomp r h
  simp [fix_reference, matchPMCFull, matchBareDOI, startsWithL, hd]

lemma fix_reference_bareDOI (r : List Char) (h : matchBareDOI r = true) :
    fix_reference r = ('d' :: 'o' :: 'i' :: ':' :: r, true) := by
  obtain ⟨t, rfl, hd⟩ := matchBareDOI_decomp r h
  simp [fix_reference, matchPMCFull, matchBareDOI, startsWithL, hd]

/-- C8: reference canonicalization is idempotent. For every citation string,
re-applying `fix_reference` to its own output returns that output unchanged
(and reports `was_changed = false`); in particular an already-canonical
reference is a fixed point. -/
theorem fix_reference_idempotent (ref : List Char) :
    fix_reference (fix_reference ref).1 = ((fix_reference ref).1, false) := by
  by_cases h1 : startsWithL ['p', 'm', 'i', 'd', ':'] ref = true
  · obtain ⟨t, rfl⟩ := (startsWithL_eq_true_iff _ _).mp h1
    rw [show (['p', 'm', 'i', 'd', ':'] ++ t : List Char)
          = 'p' :: 'm' :: 'i' :: 'd' :: ':' :: t from rfl,
      fix_reference_pmid_lower]
    exact fix_reference_PMID_fixed t
  · by_cases h2 : matchPMCFull ref = true
    · rw [fix_reference_PMC ref h2]
      exact fix_reference_PMID_fixed _
    · by_cases h3 : startsWithL ['D', 'O', 'I', ':'] ref = true
      · obtain ⟨t, rfl⟩ := (startsWithL_eq_true_iff _ _).mp h3
        rw [show (['D', 'O', 'I', ':'] ++ t : List Char)
              = 'D' :: 'O' :: 'I' :: ':' :: t from rfl,
          fix_reference_DOI_upper]
        exact fix_reference_doi_fixed t
      · by_cases h4 : matchBareDOI ref = true
        · rw [fix_reference_bareDOI ref h4]
          exact fix_reference_doi_fixed _
        · replace h1 : startsWithL ['p', 'm', 'i', 'd', ':'] ref = false := by
            simpa using h1
          replace h2 : matchPMCFull ref = false := by simpa using h2
          replace h3 : startsWithL ['D', 'O', 'I', ':'] ref = false := by
            simpa using h3
          replace h4 : matchBareDOI ref = false := by simpa using h4
          have hfix : fix_reference ref = (ref, false) := by
            simp [fix_reference, h1, h2, h3, h4]
          rw [hfix]
          exact hfix

/-- C2: for every citation string, the normalizer maps each of the four
recognized malformed shapes to its documented canonical form (`pmid:` →
`PMID:`, `DOI:` → `doi:`, bare `PMC<digits>` → `PMID:PMC...`, bare
`10.<digits>/...` → `doi:10....`), both in `validate_reference_format`
(as the suggested fix) and in `fix_reference`; and every string matching
none of the recognized shapes (neither the canonical `PMID:`/`doi:`/
`bioproject:` prefixes nor the four malformed shapes) is rejected with an
`INVALID_REFERENCE_FORMAT` error of severity `ERROR` and no suggested fix. -/
theorem reference_normalizer_shapes :
    (∀ t : List Char, validate_reference_format ('p' :: 'm' :: 'i' :: 'd' :: ':' :: t)
        = (false, some ('P' :: 'M' :: 'I' :: 'D' :: ':' :: t))) ∧
    (∀ t : List Char, validate_reference_format ('D' :: 'O' :: 'I' :: ':' :: t)
        = (false, some ('d' :: 'o' :: 'i' :: ':' :: t))) ∧
    (∀ r : List Char, matchPMCFull r = true →
        validate_reference_format r = (false, some ('P' :: 'M' :: 'I' :: 'D' :: ':' :: r))) ∧
    (∀ r : List Char, matchBareDOI r = true →
        validate_reference_format r = (false, some ('d' :: 'o' :: 'i' :: ':' :: r))) ∧
    (∀ r : List Char, matchesSchemaRef r = false →
        startsWithL ['p', 'm', 'i', 'd', ':'] r = false →
        startsWithL ['D', 'O', 'I', ':'] r = false →
        matchBareDOI r = false → matchPMCFull r = false →
        validate_reference_format r = (false, none) ∧
        auditReferenceIssue r = some ("INVALID_REFERENCE_FORMAT", "ERROR")) ∧
    (∀ t : List Char, fix_reference ('p' :: 'm' :: 'i' :: 'd' :: ':' :: t)
        = ('P' :: 'M' :: 'I' :: 'D' :: ':' :: t, true)) ∧
    (∀ t : List Char, fix_reference ('D' :: 'O' :: 'I' :: ':' :: t)
        = ('d' :: 'o' :: 'i' :: ':' :: t, true)) ∧
    (∀ r : List Char, matchPMCFull r = true →
        fix_reference r = ('P' :: 'M' :: 'I' :: 'D' :: ':' :: r, true)) ∧
    (∀ r : List Char, matchBareDOI r = true →
        fix_reference r = ('d' :: 'o' :: 'i' :: ':' :: r, true)) := by
  refine ⟨?_, ?_, ?_, ?_, ?_, fix_reference_pmid_lower, fix_reference_DOI_upper,
    fix_reference_PMC, fix_reference_bareDOI⟩
  · intro t
    simp [validate_reference_format, matchesSchemaRef, matchPMCFull, matchBareDOI, startsWithL]
  · intro t
    simp [validate_reference_format, matchesSchemaRef, matchPMCFull, matchBareDOI, startsWithL]
  · intro r h
    obtain ⟨t, rfl, hd⟩ := matchPMCFull_decomp r h
    simp [validate_reference_format, matchesSchemaRef, matchPMCFull, matchBareDOI,
      startsWithL, hd]
  · intro r h
    obtain ⟨t, rfl, hd⟩ := matchBareDOI_decomp r h
    simp [validate_reference_format, matchesSchemaRef, matchPMCFull, matchBareDOI,
      startsWithL, hd]
  · intro r hs hp hD hb hc
    constructor
    · simp [validate_reference_format, hs, hp, hD, hb, hc]
    · simp [auditReferenceIssue, validate_reference_format, hs, hp, hD, hb, hc]

/-- Witness for C2: the conjuncts of `reference_normalizer_shapes` that carry
hypotheses, instantiated at concrete malformed and unrecognized references. -/
theorem reference_normalizer_shapes_witness :
    (matchPMCFull "PMC33".toList = true ∧
      validate_reference_format "PMC33".toList
        = (false, some ('P' :: 'M' :: 'I' :: 'D' :: ':' :: "PMC33".toList)) ∧
      fix_reference "PMC33".toList
        = ('P' :: 'M' :: 'I' :: 'D' :: ':' :: "PMC33".toList, true)) ∧
    (matchBareDOI "10.12/ab".toList = true ∧
      validate_reference_format "10.12/ab".toList
        = (false, some ('d' :: 'o' :: 'i' :: ':' :: "10.12/ab".toList)) ∧
      fix_reference "10.12/ab".toList
        = ('d' :: 'o' :: 'i' :: ':' :: "10.12/ab".toList, true)) ∧
    (validate_reference_format "garbage".toList = (false, none) ∧
      auditReferenceIssue "garbage".toList = some ("INVALID_REFERENCE_FORMAT", "ERROR")) :=
  ⟨⟨by decide, reference_normalizer_shapes.2.2.1 _ (by decide),
      reference_normalizer_shapes.2.2.2.2.2.2.2.1 _ (by decide)⟩,
    ⟨by decide, reference_normalizer_shapes.2.2.2.1 _ (by decide),
      reference_normalizer_shapes.2.2.2.2.2.2.2.2 _ (by decide)⟩,
    reference_normalizer_shapes.2.2.2.2.1 _ (by decide) (by decide) (by decide)
      (by decide) (by decide)⟩

/-! ### Snippet Validator

`src/communitymech/literature.py`, `LiteratureFetcher.validate_evidence_snippet`
(lines 174-202). The fuzzy branch calls
`difflib.SequenceMatcher(None, a, b).ratio()`; the definitions below translate
CPython's `difflib` (with `isjunk=None` and the default `autojunk=True`) for
character sequences: `b2jGet` is the `__chain_b` index with popular-element
purging, `find_longest_match` the junk-free matching loop with its two
extension passes, and `totalMatches` the size sum of `get_matching_blocks`
(the queue-driven divide and conquer; only the sum enters `ratio`). -/

/-- Positions (ascending) of a character in `b`: the `b2j` lists of
`difflib.SequenceMatcher.__chain_b`. -/
def positionsOf (c : Char) (b : List Char) : List Nat :=
  (List.range b.length).filter (fun j => b.getD j ' ' = c)

/-- `b2j.get(ch, [])` after autojunk purging: for `len(b) >= 200`, characters
occurring more than `len(b) // 100 + 1` times are dropped from the index. -/
def b2jGet (b : List Char) (c : Char) : List Nat :=
  let idxs := positionsOf c b
  if 200 ≤ b.length ∧ b.length / 100 + 1 < idxs.length then [] else idxs

/-- A candidate longest match `(besti, bestj, bestsize)`. -/
structure FlmBest where
  besti : Nat
  bestj : Nat
  bestsize : Nat
deriving DecidableEq

/-- Lookup in a `j2len` dictionary represented as an association list
(keys are distinct within one sweep row); `dict.get(j, 0)`. -/
def j2lenGet (m : List (Nat × Nat)) (j : Nat) : Nat :=
  match m with
  | [] => 0
  | (k, v) :: rest => if k = j then v else j2lenGet rest j

/-- The `j2len` dynamic-programming sweep of `find_longest_match`: for each
`i` in `[alo, ahi)` and each indexed position `j` of `a[i]` in `[blo, bhi)`,
`k = j2len.get(j-1, 0) + 1`, keeping the first strictly-longest match. -/
def flmScan (a b : List Char) (alo ahi blo bhi : Nat) : FlmBest :=
  ((List.range' alo (ahi - alo)).foldl
    (fun (acc : List (Nat × Nat) × FlmBest) i =>
      (b2jGet b (a.getD i ' ')).filter (fun j => blo ≤ j ∧ j < bhi) |>.foldl
        (fun (p : List (Nat × Nat) × FlmBest) j =>
          let k := (if j = 0 then 0 else j2lenGet acc.1 (j - 1)) + 1
          ((j, k) :: p.1,
            if p.2.bestsize < k then ⟨i + 1 - k, j + 1 - k, k⟩ else p.2))
        ([], acc.2))
    ([], ⟨alo, blo, 0⟩)).2

/-- The first extension loop of `find_longest_match` (with an empty junk set,
the junk-aware loops never fire): grow the match leftwards over equal
characters. Fuel-indexed; `besti` units always suffice. -/
def extendLeft (a b : List Char) (alo blo : Nat) : Nat → FlmBest → FlmBest
  | 0, best => best
  | fuel + 1, best =>
    if alo < best.besti ∧ blo < best.bestj ∧
        a.getD (best.besti - 1) ' ' = b.getD (best.bestj - 1) ' ' then
      extendLeft a b alo blo fuel ⟨best.besti - 1, best.bestj - 1, best.bestsize + 1⟩
    else best

/-- The second extension loop of `find_longest_match`: grow the match
rightwards over equal characters. Fuel-indexed; `ahi - (besti + bestsize)`
units always suffice. -/
def extendRight (a b : List Char) (ahi bhi : Nat) : Nat → FlmBest → FlmBest
  | 0, best => best
  | fuel + 1, best =>
    if best.besti + best.bestsize < ahi ∧ best.bestj + best.bestsize < bhi ∧
        a.getD (best.besti + best.bestsize) ' ' = b.getD (best.bestj + best.bestsize) ' ' then
      extendRight a b ahi bhi fuel ⟨best.besti, best.bestj, best.bestsize + 1⟩
    else best

/-- `difflib.SequenceMatcher.find_longest_match` on `[alo, ahi) × [blo, bhi)`
with `isjunk=None`. -/
def find_longest_match (a b : List Char) (alo ahi blo bhi : Nat) : FlmBest :=
  let best := flmScan a b alo ahi blo bhi
  let best := extendLeft a b alo blo best.besti best
  extendRight a b ahi bhi (ahi - (best.besti + best.bestsize)) best

/-- The queue loop of `get_matching_blocks`, accumulating the total size of
all matching blocks (the only quantity `ratio` needs). Fuel-indexed: every
iteration either discards a region or splits it into strictly smaller ones,
so `len(a) + len(b) + 1` units always suffice. Regions are processed in
CPython's LIFO order. -/
def matchingBlocksSum (a b : List Char) : Nat → List (Nat × Nat × Nat × Nat) → Nat → Nat
  | 0, _, acc => acc
  | _ + 1, [], acc => acc
  | fuel + 1, (alo, ahi, blo, bhi) :: queue, acc =>
    let m := find_longest_match a b alo ahi blo bhi
    if m.bestsize = 0 then matchingBlocksSum a b fuel queue acc
    else
      let q1 := if alo < m.besti ∧ blo < m.bestj then
        (alo, m.besti, blo, m.bestj) :: queue else queue
      let q2 := if m.besti + m.bestsize < ahi ∧ m.bestj + m.bestsize < bhi then
        (m.besti + m.bestsize, ahi, m.bestj + m.bestsize, bhi) :: q1 else q1
      matchingBlocksSum a b fuel q2 (acc + m.bestsize)

/-- Total number of matched characters over all matching blocks. -/
def totalMatches (a b : List Char) : Nat :=
  matchingBlocksSum a b (a.length + b.length + 1) [(0, a.length, 0, b.length)] 0

/-- `difflib.SequenceMatcher(None, a, b).ratio()`:
`2.0 * matches / (len(a) + len(b))`, and `1.0` for two empty sequences. -/
def sequenceMatcherQRatio (a b : List Char) : ℚ :=
  if a.length + b.length = 0 then 1
  else (2 * totalMatches a b : ℚ) / ((a.length : ℚ) + (b.length : ℚ))

/-- `LiteratureFetcher.validate_evidence_snippet`
(src/communitymech/literature.py lines 174-202): empty snippet or abstract is
invalid; otherwise whitespace-normalize both, lowercase, accept on substring
containment, else accept exactly when the `SequenceMatcher` ratio is
strictly greater than `0.95`. -/
def validate_evidence_snippet (snippet abstract : List Char) : Bool :=
  if abstract = [] || snippet = [] then false
  else
    let sn := wsNormalize snippet
    let an := wsNormalize abstract
    if containsSub (pyLower sn) (pyLower an) then true
    else if (0.95 : ℚ) < sequenceMatcherQRatio (pyLower sn) (pyLower an) then true
    else false

lemma validate_snippet_cases (snippet abstract : List Char) :
    validate_evidence_snippet snippet abstract = true ↔
      snippet ≠ [] ∧ abstract ≠ [] ∧
        (containsSub (pyLower (wsNormalize snippet)) (pyLower (wsNormalize abstract)) = true ∨
          (0.95 : ℚ) < sequenceMatcherQRatio (pyLower (wsNormalize snippet))
            (pyLower (wsNormalize abstract))) := by
  unfold validate_evidence_snippet
  by_cases h1 : abstract = []
  · simp [h1]
  · by_cases h2 : snippet = []
    · simp [h1, h2]
    · cases hc : containsSub (pyLower (wsNormalize snippet)) (pyLower (wsNormalize abstract)) with
      | true => simp [h1, h2, hc]
      | false =>
        by_cases hr : (0.95 : ℚ) < sequenceMatcherQRatio (pyLower (wsNormalize snippet))
            (pyLower (wsNormalize abstract))
        · simp [h1, h2, hc, hr]
        · simp [h1, h2, hc, hr]

/-- C3: the snippet validator returns `true` exactly when both strings are
non-empty and either the whitespace-collapsed, case-folded snippet is a
substring of the whitespace-collapsed, case-folded source, or the
whole-string `SequenceMatcher` similarity ratio of the two normalized
strings is strictly greater than 0.95; in particular it returns `false`
whenever the snippet or the source is empty. -/
theorem validate_evidence_snippet_iff (snippet abstract : List Char) :
    validate_evidence_snippet snippet abstract = true ↔
      snippet ≠ [] ∧ abstract ≠ [] ∧
        (containsSub (pyLower (wsNormalize snippet)) (pyLower (wsNormalize abstract)) = true ∨
          (0.95 : ℚ) < sequenceMatcherQRatio (pyLower (wsNormalize snippet))
            (pyLower (wsNormalize abstract))) :=
  validate_snippet_cases snippet abstract

/-- C7 counterexample: a non-empty snippet/source pair whose similarity
ratio is exactly 0.95 (and which is not a substring match) is rejected by
the validator, refuting the claim that ratio ≥ 0.95 suffices. -/
theorem validate_rejects_ratio_exactly_095 :
    "abcdefghijklmnopqrst".toList ≠ [] ∧
    "abcdefghijklmnopqrsu".toList ≠ [] ∧
    sequenceMatcherQRatio (pyLower (wsNormalize "abcdefghijklmnopqrst".toList))
      (pyLower (wsNormalize "abcdefghijklmnopqrsu".toList)) = 0.95 ∧
    validate_evidence_snippet "abcdefghijklmnopqrst".toList "abcdefghijklmnopqrsu".toList
      = false := by
  have hM : totalMatches (pyLower (wsNormalize "abcdefghijklmnopqrst".toList))
      (pyLower (wsNormalize "abcdefghijklmnopqrsu".toList)) = 19 := by decide
  have hl1 : (pyLower (wsNormalize "abcdefghijklmnopqrst".toList)).length = 20 := by decide
  have hl2 : (pyLower (wsNormalize "abcdefghijklmnopqrsu".toList)).length = 20 := by decide
  have hrat : sequenceMatcherQRatio (pyLower (wsNormalize "abcdefghijklmnopqrst".toList))
      (pyLower (wsNormalize "abcdefghijklmnopqrsu".toList)) = 0.95 := by
    rw [sequenceMatcherQRatio, hM, hl1, hl2]
    norm_num
  have hc : containsSub (pyLower (wsNormalize "abcdefghijklmnopqrst".toList))
      (pyLower (wsNormalize "abcdefghijklmnopqrsu".toList)) = false := by decide
  have hlt : ¬ ((0.95 : ℚ) < sequenceMatcherQRatio
      (pyLower (wsNormalize "abcdefghijklmnopqrst".toList))
      (pyLower (wsNormalize "abcdefghijklmnopqrsu".toList))) := by
    rw [hrat]
    exact lt_irrefl _
  refine ⟨by decide, by decide, hrat, ?_⟩
  refine Bool.eq_false_iff.mpr (fun hvt => ?_)
  rcases (validate_snippet_cases _ _).mp hvt with ⟨-, -, hor | hor⟩
  · rw [hc] at hor
    exact Bool.false_ne_true hor
  · exact hlt hor

/-- C7 (amended): for every non-empty snippet and source whose similarity
ratio is strictly greater than 0.95, the validator accepts; the code uses a
strict comparison, so a ratio of exactly 0.95 is rejected (see the
counterexample) while any ratio above 0.95 is accepted. -/
theorem validate_accepts_ratio_above_095 (snippet abstract : List Char)
    (h1 : snippet ≠ []) (h2 : abstract ≠ [])
    (h3 : (0.95 : ℚ) < sequenceMatcherQRatio (pyLower (wsNormalize snippet))
      (pyLower (wsNormalize abstract))) :
    validate_evidence_snippet snippet abstract = true :=
  (validate_snippet_cases snippet abstract).mpr ⟨h1, h2, Or.inr h3⟩

/-- Witness for the amended C7 theorem at a concrete input with ratio 1. -/
theorem validate_accepts_ratio_above_095_witness :
    validate_evidence_snippet "ab".toList "ab".toList = true :=
  validate_accepts_ratio_above_095 "ab".toList "ab".toList (by decide) (by decide)
    (by
      have hM : totalMatches (pyLower (wsNormalize "ab".toList))
          (pyLower (wsNormalize "ab".toList)) = 2 := by decide
      have hl : (pyLower (wsNormalize "ab".toList)).length = 2 := by decide
      rw [sequenceMatcherQRatio, hM, hl]
      norm_num)

/-! ### Literature fetchers

`src/communitymech/literature.py`, `LiteratureFetcher` (lines 25-172). The
`requests` session is abstracted by an oracle `net : Nat → HttpOutcome`
indexed by the number of network calls made so far; the on-disk cache
directory is the explicit `FetchState`. JSON-decoded Python values are the
`Json` type below (numbers collapsed to `Int`; no scored comparison ever
inspects a JSON number). -/

/-- A JSON-decoded Python value. -/
inductive Json where
  | null
  | bool (b : Bool)
  | num (n : Int)
  | str (s : List Char)
  | arr (items : List Json)
  | obj (fields : List (List Char × Json))

/-- Python truthiness of a JSON-decoded value (`None`, `False`, `0`, `""`,
`[]`, `{}` are falsy). -/
def pyTruthy : Json → Bool
  | .null => false
  | .bool b => b
  | .num n => n ≠ 0
  | .str s => s ≠ []
  | .arr l => !l.isEmpty
  | .obj l => !l.isEmpty

/-- First-match key lookup in a JSON object's field list. -/
def jsonLookup (k : List Char) : List (List Char × Json) → Option Json
  | [] => none
  | (k', v) :: rest => if k' = k then some v else jsonLookup k rest

/-- A Python exception escaping the fetchers (anything not caught by
`except requests.exceptions.RequestException`). -/
inductive PyErr where
  | attributeError
  | keyError
  | typeError
deriving DecidableEq

/-- Python `v.get(k)` on a decoded JSON value: returns the member (or `None`)
when `v` is a dict, raises `AttributeError` otherwise. -/
def pyDictGet (v : Json) (k : List Char) : Except PyErr Json :=
  match v with
  | .obj fields => .ok ((jsonLookup k fields).getD .null)
  | _ => .error .attributeError

/-- Python `v[k]` with a string key: member access on a dict (`KeyError` when
absent), `TypeError` on any other value. -/
def pySubscript (v : Json) (k : List Char) : Except PyErr Json :=
  match v with
  | .obj fields =>
    match jsonLookup k fields with
    | some x => .ok x
    | none => .error .keyError
  | _ => .error .typeError

/-- Outcome of one `session.get(...)` followed by `raise_for_status()`:
`exn` models a raised `requests.exceptions.RequestException` (connection
error, timeout, or non-success HTTP status); `ok text parsed` a successful
response with body `text`, where `parsed` is the outcome of
`response.json()` on that body (`none` models
`requests.exceptions.JSONDecodeError`, a `RequestException` subclass since
requests 2.27, raised for an empty or non-JSON body). -/
inductive HttpOutcome where
  | exn
  | ok (text : List Char) (parsed : Option Json)

/-- The on-disk cache directory of `LiteratureFetcher` (one file per
reference; DOI cache files hold `json.dumps` of the metadata, modelled by
the decoded value) plus a count of network calls issued so far. -/
structure FetchState where
  pmidCache : List (List Char × List Char)
  doiCache : List (List Char × Json)
  networkCalls : Nat

/-- A fresh cache directory and no network traffic. -/
def initState : FetchState := ⟨[], [], 0⟩

/-- Record one network call. -/
def bumpNet (s : FetchState) : FetchState :=
  { s with networkCalls := s.networkCalls + 1 }

/-- Cache-file lookup by exact file name. -/
def cacheLookup {α : Type} (k : List Char) : List (List Char × α) → Option α
  | [] => none
  | (k', v) :: rest => if k' = k then some v else cacheLookup k rest

/-- `LiteratureFetcher.fetch_pubmed_abstract` (literature.py lines 25-65):
strip the `PMID:` prefix, serve from `pmid_<id>.txt` when cached; otherwise
fetch, cache the body on success, and return `None` on a caught
`RequestException` — note that nothing is written to the cache on failure. -/
def fetch_pubmed_abstract (net : Nat → HttpOutcome) (pmid0 : List Char)
    (s : FetchState) : Option (List Char) × FetchState :=
  let pmid := pyStrip (replaceAll "PMID:".toList [] pmid0)
  let key := "pmid_".toList ++ pmid ++ ".txt".toList
  match cacheLookup key s.pmidCache with
  | some txt => (some txt, s)
  | none =>
    match net s.networkCalls with
    | .exn => (none, bumpNet s)
    | .ok text _ =>
      (some text, { bumpNet s with pmidCache := (key, text) :: s.pmidCache })

/-- The DOI cleanup `doi.replace("doi:", "").replace("https://doi.org/", "").strip()`
shared by the DOI-based fetchers. -/
def cleanDoi (doi0 : List Char) : List Char :=
  pyStrip (replaceAll "https://doi.org/".toList [] (replaceAll "doi:".toList [] doi0))

/-- `LiteratureFetcher.fetch_unpaywall` (literature.py lines 105-136): a
caught `RequestException` (including a JSON decode failure) yields `None`;
on a decoded payload the accesses `data.get("is_oa")`,
`data.get("best_oa_location")` and `data["best_oa_location"].get("url_for_pdf")`
run inside the `try` block but raise `AttributeError` past the
`RequestException` handler when the decoded value is not a dict. -/
def fetch_unpaywall (net : Nat → HttpOutcome) (doi0 : List Char)
    (s : FetchState) : Except PyErr (Json × FetchState) :=
  let _doi := cleanDoi doi0
  match net s.networkCalls with
  | .exn => .ok (.null, bumpNet s)
  | .ok _ none => .ok (.null, bumpNet s)
  | .ok _ (some data) =>
    let s' := bumpNet s
    match pyDictGet data "is_oa".toList with
    | .error e => .error e
    | .ok isOa =>
      if pyTruthy isOa then
        match pyDictGet data "best_oa_location".toList with
        | .error e => .error e
        | .ok loc =>
          if pyTruthy loc then
            match pySubscript data "best_oa_location".toList with
            | .error e => .error e
            | .ok locv =>
              match pyDictGet locv "url_for_pdf".toList with
              | .error e => .error e
              | .ok pdf => .ok (pdf, s')
          else .ok (.null, s')
      else .ok (.null, s')

/-- `LiteratureFetcher.fetch_doi_metadata` (literature.py lines 67-103):
serve the decoded metadata from `doi_<doi with / replaced>.json` when
cached; otherwise fetch, cache and return the decoded payload, or `None` on
a caught `RequestException` (including a JSON decode failure). -/
def fetch_doi_metadata (net : Nat → HttpOutcome) (doi0 : List Char)
    (s : FetchState) : Option Json × FetchState :=
  let doi := cleanDoi doi0
  let key := "doi_".toList ++ replaceAll "/".toList "_".toList doi ++ ".json".toList
  match cacheLookup key s.doiCache with
  | some j => (some j, s)
  | none =>
    match net s.networkCalls with
    | .exn => (none, bumpNet s)
    | .ok _ none => (none, bumpNet s)
    | .ok _ (some metadata) =>
      (some metadata, { bumpNet s with doiCache := (key, metadata) :: s.doiCache })

/-- Lift the abstract text returned by the PMID branch into the tuple. -/
def jsonOfOptStr : Option (List Char) → Json
  | none => .null
  | some t => .str t

/-- `LiteratureFetcher.fetch_paper` (literature.py lines 138-172): dispatch
on the reference shape; the PMID branch returns `(abstract, None)`; the DOI
branch combines Unpaywall and CrossRef, where
`metadata.get("abstract") if metadata else None` raises `AttributeError`
when the decoded metadata is truthy but not a dict; unknown shapes return
`(None, None)`. The result is `(abstract, pdf_url)` as decoded values. -/
def fetch_paper (net : Nat → HttpOutcome) (reference : List Char)
    (s : FetchState) : Except PyErr ((Json × Json) × FetchState) :=
  if startsWithL "PMID:".toList reference || pyIsDigit reference then
    let pmid := pyStrip (replaceAll "PMID:".toList [] reference)
    let r := fetch_pubmed_abstract net pmid s
    .ok ((jsonOfOptStr r.1, .null), r.2)
  else if containsSub "doi".toList (pyLower reference) ||
      startsWithL "10.".toList reference then
    let doi := cleanDoi reference
    match fetch_unpaywall net doi s with
    | .error e => .error e
    | .ok (pdfUrl, s1) =>
      let r2 := fetch_doi_metadata net doi s1
      match
        (match r2.1 with
          | none => Except.ok Json.null
          | some m => if pyTruthy m then pyDictGet m "abstract".toList
            else Except.ok Json.null) with
      | .error e => .error e
      | .ok abstract => .ok ((abstract, pdfUrl), r2.2)
  else
    .ok ((.null, .null), s)

/-! ### Cache and error-absorption facts about the fetchers (claims C1, C4) -/

/-- C1 counterexample: with a network that always fails, the first
`fetch_pubmed_abstract` call creates no cache entry (refuting "a persistent
cache entry whether the attempt succeeded or failed") and a second call for
the same reference contacts the network again, for two network calls in
total (refuting "at most one network call even when the first attempt
failed"). -/
theorem fetch_pubmed_failure_not_cached :
    (fetch_pubmed_abstract (fun _ => HttpOutcome.exn) "12345".toList initState).1 = none ∧
    (fetch_pubmed_abstract (fun _ => HttpOutcome.exn) "12345".toList initState).2.pmidCache
      = [] ∧
    (fetch_pubmed_abstract (fun _ => HttpOutcome.exn) "12345".toList
      ((fetch_pubmed_abstract (fun _ => HttpOutcome.exn) "12345".toList
        initState).2)).2.networkCalls = 2 :=
  ⟨rfl, rfl, rfl⟩

/-- C1 (amended): when the first resolution attempt succeeds, a persistent
cache entry is created, the network is used exactly once, and a second call
for the same reference is served from the cache with an identical result and
no further network call; but when the first attempt fails, no cache entry is
created and a second call contacts the network again. -/
theorem fetch_pubmed_cache_semantics :
    (∀ (net : Nat → HttpOutcome) (pmid text : List Char) (p : Option Json),
      net 0 = HttpOutcome.ok text p →
      (fetch_pubmed_abstract net pmid initState).1 = some text ∧
      (fetch_pubmed_abstract net pmid initState).2.networkCalls = 1 ∧
      fetch_pubmed_abstract net pmid (fetch_pubmed_abstract net pmid initState).2
        = (some text, (fetch_pubmed_abstract net pmid initState).2)) ∧
    (∀ (net : Nat → HttpOutcome) (pmid : List Char),
      net 0 = HttpOutcome.exn →
      (fetch_pubmed_abstract net pmid initState).1 = none ∧
      (fetch_pubmed_abstract net pmid initState).2.pmidCache = [] ∧
      (fetch_pubmed_abstract net pmid
        (fetch_pubmed_abstract net pmid initState).2).2.networkCalls = 2) := by
  constructor
  · intro net pmid text p h
    have h0 : fetch_pubmed_abstract net pmid initState
        = (some text,
          { pmidCache := [("pmid_".toList ++ pyStrip (replaceAll "PMID:".toList [] pmid)
              ++ ".txt".toList, text)],
            doiCache := [], networkCalls := 1 }) := by
      unfold fetch_pubmed_abstract
      simp [initState, cacheLookup, bumpNet, h]
    rw [h0]
    refine ⟨rfl, rfl, ?_⟩
    unfold fetch_pubmed_abstract
    simp [cacheLookup]
  · intro net pmid h
    have h0 : fetch_pubmed_abstract net pmid initState
        = (none, { pmidCache := [], doiCache := [], networkCalls := 1 }) := by
      unfold fetch_pubmed_abstract
      simp [initState, cacheLookup, bumpNet, h]
    rw [h0]
    refine ⟨rfl, rfl, ?_⟩
    unfold fetch_pubmed_abstract
    cases hn : net 1 <;> simp [cacheLookup, bumpNet, hn]

/-- Witness for the amended C1 theorem: both conjuncts applied at a concrete
network oracle and reference. -/
theorem fetch_pubmed_cache_semantics_witness :
    ((fun _ => HttpOutcome.ok "ABS".toList none) 0 = HttpOutcome.ok "ABS".toList none ∧
      (fetch_pubmed_abstract (fun _ => HttpOutcome.ok "ABS".toList none) "7".toList
        initState).1 = some "ABS".toList) ∧
    ((fun _ => HttpOutcome.exn) 0 = HttpOutcome.exn ∧
      (fetch_pubmed_abstract (fun _ => HttpOutcome.exn) "7".toList initState).1 = none) :=
  ⟨⟨rfl, (fetch_pubmed_cache_semantics.1 (fun _ => HttpOutcome.ok "ABS".toList none)
      "7".toList "ABS".toList none rfl).1⟩,
    ⟨rfl, (fetch_pubmed_cache_semantics.2 (fun _ => HttpOutcome.exn) "7".toList rfl).1⟩⟩

/-- Whether a JSON value is an object. -/
def jsonIsObj : Json → Bool
  | .obj _ => true
  | _ => false

/-- Payload shape assumed (but never checked) by the DOI-based fetchers: the
decoded JSON is an object, and its `best_oa_location` member, when truthy,
is itself an object. -/
def wellShapedPayload : Json → Bool
  | .obj fields =>
    match jsonLookup "best_oa_location".toList fields with
    | some v => !pyTruthy v || jsonIsObj v
    | none => true
  | _ => false

/-- Whether an `Except` computation finished without a Python exception. -/
def exceptIsOk {ε α : Type} : Except ε α → Bool
  | .ok _ => true
  | .error _ => false

lemma fetch_unpaywall_ok_of_shaped (net : Nat → HttpOutcome) (doi : List Char)
    (s : FetchState)
    (hnet : ∀ n t j, net n = HttpOutcome.ok t (some j) → wellShapedPayload j = true) :
    ∃ v s', fetch_unpaywall net doi s = .ok (v, s') ∧ s'.doiCache = s.doiCache := by
  cases hn : net s.networkCalls with
  | exn =>
    exact ⟨.null, bumpNet s, by simp [fetch_unpaywall, hn], rfl⟩
  | ok text parsed =>
    cases parsed with
    | none => exact ⟨.null, bumpNet s, by simp [fetch_unpaywall, hn], rfl⟩
    | some data =>
      have hws := hnet _ _ _ hn
      cases data with
      | obj fields =>
        unfold fetch_unpaywall
        rw [hn]
        simp only [pyDictGet]
        by_cases hoa : pyTruthy ((jsonLookup "is_oa".toList fields).getD .null) = true
        · rw [if_pos hoa]
          cases hbl : jsonLookup "best_oa_location".toList fields with
          | none =>
            exact ⟨.null, bumpNet s, by simp [pyTruthy], rfl⟩
          | some v =>
            simp only [Option.getD_some]
            by_cases htv : pyTruthy v = true
            · have hws2 : (!pyTruthy v || jsonIsObj v) = true := by
                simp only [wellShapedPayload] at hws
                rw [hbl] at hws
                simpa using hws
              have hvobj : ∃ fs, v = Json.obj fs := by
                cases v with
                | obj fs => exact ⟨fs, rfl⟩
                | null => simp [pyTruthy] at htv
                | bool b => simp [htv, jsonIsObj] at hws2
                | num n => simp [htv, jsonIsObj] at hws2
                | str t => simp [htv, jsonIsObj] at hws2
                | arr l => simp [htv, jsonIsObj] at hws2
              obtain ⟨fs, rfl⟩ := hvobj
              rw [if_pos htv]
              simp only [pySubscript, hbl, pyDictGet]
              exact ⟨_, bumpNet s, rfl, rfl⟩
            · rw [if_neg htv]
              exact ⟨.null, bumpNet s, rfl, rfl⟩
        · rw [if_neg hoa]
          exact ⟨.null, bumpNet s, rfl, rfl⟩
      | null => simp [wellShapedPayload] at hws
      | bool b => simp [wellShapedPayload] at hws
      | num n => simp [wellShapedPayload] at hws
      | str t => simp [wellShapedPayload] at hws
      | arr l => simp [wellShapedPayload] at hws

lemma fetch_doi_metadata_shape (net : Nat → HttpOutcome) (doi : List Char)
    (s : FetchState)
    (hnet : ∀ n t j, net n = HttpOutcome.ok t (some j) → wellShapedPayload j = true)
    (hc : s.doiCache = []) :
    (fetch_doi_metadata net doi s).1 = none ∨
    ∃ m, (fetch_doi_metadata net doi s).1 = some m ∧ wellShapedPayload m = true := by
  unfold fetch_doi_metadata
  rw [hc]
  simp only [cacheLookup]
  cases hn : net s.networkCalls with
  | exn => exact Or.inl rfl
  | ok text parsed =>
    cases parsed with
    | none => exact Or.inl rfl
    | some m => exact Or.inr ⟨m, rfl, hnet _ _ _ hn⟩

/-- C4 counterexample: a successful HTTP response whose body decodes to a
JSON array (not an object) makes `fetch_paper` raise `AttributeError` to the
caller (via `data.get("is_oa")` in `fetch_unpaywall`), refuting "the fetch
operations never raise an exception to the caller" for arbitrary payloads. -/
theorem fetch_paper_raises_on_array_payload :
    fetch_paper (fun _ => HttpOutcome.ok "[1]".toList (some (Json.arr [Json.num 1])))
      "doi:10.1/x".toList initState = .error PyErr.attributeError :=
  rfl

/-- C4 (amended): network errors, timeouts, HTTP error statuses, empty
bodies and invalid-JSON bodies are all absorbed locally and a fully failed
resolution is returned as data `(None, None)`; but the fetchers only absorb
`requests` exceptions, so the "never raises" guarantee holds provided every
successfully decoded payload is a JSON object whose `best_oa_location`
member, when truthy, is itself an object — a payload of any other shape
raises `AttributeError` to the caller (see the counterexample). -/
theorem fetch_paper_absorbs_failures :
    (∀ (net : Nat → HttpOutcome) (reference : List Char),
      (∀ n t j, net n = HttpOutcome.ok t (some j) → wellShapedPayload j = true) →
      exceptIsOk (fetch_paper net reference initState) = true) ∧
    (∀ (net : Nat → HttpOutcome) (reference : List Char),
      (∀ n, net n = HttpOutcome.exn) →
      ∃ s', fetch_paper net reference initState = .ok ((Json.null, Json.null), s')) := by
  constructor
  · intro net reference hnet
    unfold fetch_paper
    by_cases hb1 : (startsWithL "PMID:".toList reference || pyIsDigit reference) = true
    · rw [if_pos hb1]
      rfl
    · rw [if_neg (by simpa using (Bool.not_eq_true _).mp hb1)]
      by_cases hb2 : (containsSub "doi".toList (pyLower reference) ||
          startsWithL "10.".toList reference) = true
      · rw [if_pos hb2]
        obtain ⟨v, s1, hu, hcache⟩ :=
          fetch_unpaywall_ok_of_shaped net (cleanDoi reference) initState hnet
        simp only [hu]
        rcases fetch_doi_metadata_shape net (cleanDoi reference) s1 hnet
            (by rw [hcache]; rfl) with hm | ⟨m, hm, hws⟩
        · simp only [hm]
          rfl
        · simp only [hm]
          by_cases htm : pyTruthy m = true
        --
          · rw [if_pos htm]
            obtain ⟨fs, rfl⟩ : ∃ fs, m = Json.obj fs := by
              cases m with
              | obj fs => exact ⟨fs, rfl⟩
              | null => simp [pyTruthy] at htm
              | bool b => simp [wellShapedPayload] at hws
              | num n => simp [wellShapedPayload] at hws
              | str t => simp [wellShapedPayload] at hws
              | arr l => simp [wellShapedPayload] at hws
            simp only [pyDictGet]
            rfl
          · rw [if_neg htm]
            rfl
      · rw [if_neg (by simpa using (Bool.not_eq_true _).mp hb2)]
        rfl
  · intro net reference hnet
    unfold fetch_paper
    by_cases hb1 : (startsWithL "PMID:".toList reference || pyIsDigit reference) = true
    · rw [if_pos hb1]
      refine ⟨(fetch_pubmed_abstract net
        (pyStrip (replaceAll "PMID:".toList [] reference)) initState).2, ?_⟩
      unfold fetch_pubmed_abstract
      simp [initState, cacheLookup, jsonOfOptStr, hnet 0]
    · rw [if_neg (by simpa using (Bool.not_eq_true _).mp hb1)]
      by_cases hb2 : (containsSub "doi".toList (pyLower reference) ||
          startsWithL "10.".toList reference) = true
      · rw [if_pos hb2]
        have hu : fetch_unpaywall net (cleanDoi reference) initState
            = .ok (.null, bumpNet initState) := by
          unfold fetch_unpaywall
          simp [initState, hnet 0]
        have hm : fetch_doi_metadata net (cleanDoi reference) (bumpNet initState)
            = (none, bumpNet (bumpNet initState)) := by
          unfold fetch_doi_metadata
          simp [initState, bumpNet, cacheLookup, hnet 1]
        refine ⟨bumpNet (bumpNet initState), ?_⟩
        simp only [hu, hm]
      · rw [if_neg (by simpa using (Bool.not_eq_true _).mp hb2)]
        exact ⟨initState, rfl⟩

/-- Witness for the amended C4 theorem: an always-failing network satisfies
the payload hypothesis vacuously, and both conjuncts are applied to it. -/
theorem fetch_paper_absorbs_failures_witness :
    exceptIsOk (fetch_paper (fun _ => HttpOutcome.exn) "doi:10.1/x".toList initState)
      = true ∧
    ∃ s', fetch_paper (fun _ => HttpOutcome.exn) "doi:10.1/x".toList initState
      = .ok ((Json.null, Json.null), s') :=
  ⟨fetch_paper_absorbs_failures.1 (fun _ => HttpOutcome.exn) "doi:10.1/x".toList
      (fun _ _ _ h => HttpOutcome.noConfusion h),
    fetch_paper_absorbs_failures.2 (fun _ => HttpOutcome.exn) "doi:10.1/x".toList
      (fun _ => rfl)⟩

/-! ### Snippet Extractor/Scorer

`scripts/intelligent_snippet_fixer.py`,
`IntelligentSnippetFixer.extract_relevant_sentences` (lines 59-179) and
`IntelligentSnippetFixer.suggest_snippets_for_evidence` (lines 181-248).
Every score constant of the source (5.0, 2.0, 1.0, 0.5, 0.3, -1.0) is an
exact multiple of 0.1, and every float sum reaching one of the comparison
boundaries (score > 0, >= 2.0, >= 5.0) is exact (see the header note), so
scores are embedded as integers counting tenths of a point — the
order-isomorphic image score*10, under which 5.0 becomes 50, 0.5 becomes 5,
0.3 becomes 3, and the thresholds 0/2.0/5.0 become 0/20/50.
The regex matchers below are specialized to the patterns in the source; each
pattern is a sequence of atoms with pairwise-disjoint character classes, so
the deterministic maximal-munch matcher is equivalent to the backtracking
semantics of `re` (for `[A-Z]{1,3}\(`, only the full uppercase run can be
followed by `(`, since any shorter prefix is followed by an uppercase
letter, never `(`). -/

/-- Sentence-ending punctuation of the split regex `[.!?]\s+`. -/
def isSentEnd (c : Char) : Bool :=
  c = '.' || c = '!' || c = '?'

/-- Whether the next character is whitespace (the `\s+` of the delimiter). -/
def headIsSpace : List Char → Bool
  | [] => false
  | c :: _ => isPySpace c

/-- Fuel-indexed worker for `re.split(r'[.!?]\s+', s)`: a delimiter is one
sentence-ending character followed by a maximal nonempty whitespace run.
Each step consumes at least one character, so `s.length + 1` fuel always
suffices. -/
def reSplitFuel (curRev : List Char) : Nat → List Char → List (List Char)
  | _, [] => [curRev.reverse]
  | 0, s => [curRev.reverse ++ s]
  | fuel + 1, c :: rest =>
    if isSentEnd c && headIsSpace rest then
      curRev.reverse :: reSplitFuel [] fuel (rest.dropWhile isPySpace)
    else reSplitFuel (c :: curRev) fuel rest

/-- `re.split(r'[.!?]\s+', s)` (intelligent_snippet_fixer.py line 85). -/
def reSplitSentences (s : List Char) : List (List Char) :=
  reSplitFuel [] (s.length + 1) s

/-- The per-sentence restoration of line 88:
`s.replace("sp__", "sp.").replace("nov__", "nov__").replace("et al__", "et al.").strip()`.
The middle call replaces `nov__` with itself — a no-op in the source, kept
verbatim here — so the `nov.` masking of line 82 is never undone. -/
def restoreSentence (s : List Char) : List Char :=
  pyStrip (replaceAll "et al__".toList "et al.".toList
    (replaceAll "nov__".toList "nov__".toList
      (replaceAll "sp__".toList "sp.".toList s)))

/-- Try a position-anchored matcher at every suffix: `re.search`. -/
def searchAnywhere (m : List Char → Bool) : List Char → Bool
  | [] => m []
  | c :: t => if m (c :: t) then true else searchAnywhere m t

/-- `^\(\d+\)` — an author-affiliation marker like `(1)`. -/
def matchParenDigits : List Char → Bool
  | '(' :: rest =>
    let d := rest.takeWhile Char.isDigit
    d ≠ [] && (match rest.drop d.length with
      | ')' :: _ => true
      | _ => false)
  | _ => false

/-- Trailing part `\(\d+\)` shared by the author-name patterns. -/
def matchParenDigitsAfter : List Char → Bool
  | '(' :: r =>
    let d := r.takeWhile Char.isDigit
    d ≠ [] && (match r.drop d.length with
      | ')' :: _ => true
      | _ => false)
  | _ => false

/-- `^[A-Z][a-z]+ [A-Z]{1,3}\(\d+\)` — an author name like `Smith AB(1)`. -/
def matchAuthorNameStart : List Char → Bool
  | [] => false
  | c :: rest =>
    c.isUpper &&
    (let low := rest.takeWhile Char.isLower
     low ≠ [] &&
     (match rest.drop low.length with
      | ' ' :: r2 =>
        let up := r2.takeWhile Char.isUpper
        (1 ≤ up.length && up.length ≤ 3) && matchParenDigitsAfter (r2.drop up.length)
      | _ => false))

/-- `[A-Z][a-z]+\s+[A-Z]{2,4}\(\d+\)` at one position — an author name
anywhere in the sentence. -/
def matchAuthorNameAt : List Char → Bool
  | [] => false
  | c :: rest =>
    c.isUpper &&
    (let low := rest.takeWhile Char.isLower
     low ≠ [] &&
     (let r2 := rest.drop low.length
      let sp := r2.takeWhile isPySpace
      sp ≠ [] &&
      (let r3 := r2.drop sp.length
       let up := r3.takeWhile Char.isUpper
       (2 ≤ up.length && up.length ≤ 4) && matchParenDigitsAfter (r3.drop up.length))))

/-- `^[A-Z][a-z]+\s+[A-Z][A-Z]` — a name like `Wakelin SA` at the start. -/
def matchNameTwoCaps : List Char → Bool
  | [] => false
  | c :: rest =>
    c.isUpper &&
    (let low := rest.takeWhile Char.isLower
     low ≠ [] &&
     (let r2 := rest.drop low.length
      let sp := r2.takeWhile isPySpace
      sp ≠ [] &&
      (match r2.drop sp.length with
       | a :: b :: _ => a.isUpper && b.isUpper
       | _ => false)))

/-- `^\d{4}` — four digits at the start (copyright years). -/
def matchFourDigits (s : List Char) : Bool :=
  (s.take 4).length = 4 && (s.take 4).all Char.isDigit

/-- The exclusion filter of lines 91-112 applied to the lowercased sentence:
any of the fourteen `exclude_patterns` matching (`re.search`) discards the
sentence. The three patterns that require an uppercase letter can never
match the lowercased text, but are kept verbatim. -/
def excludedSentence (sLower : List Char) : Bool :=
  startsWithL "author information:".toList sLower ||
  startsWithL "copyright".toList sLower ||
  matchParenDigits sLower ||
  matchAuthorNameStart sLower ||
  searchAnywhere matchAuthorNameAt sLower ||
  matchNameTwoCaps sLower ||
  containsSub "@".toList sLower ||
  matchFourDigits sLower ||
  startsWithL "doi:".toList sLower ||
  startsWithL "pmid:".toList sLower ||
  startsWithL "published by".toList sLower ||
  startsWithL "all rights reserved".toList sLower ||
  containsSub "et al".toList sLower

/-- Consume the `\.?\d*` following the integer part of a numeric literal. -/
def afterNumTail : List Char → List Char
  | '.' :: rr => rr.drop (rr.takeWhile Char.isDigit).length
  | r => r

/-- `\d+\.?\d*\s*%` at one position (line 149). -/
def matchPercentAt (s : List Char) : Bool :=
  let d := s.takeWhile Char.isDigit
  d ≠ [] &&
  (match (afterNumTail (s.drop d.length)).dropWhile isPySpace with
    | '%' :: _ => true
    | _ => false)

/-- `\d+\.?\d*\s*(mM|µM|mg/L|g/L|pH)` at one position (line 151). -/
def matchUnitAt (s : List Char) : Bool :=
  let d := s.takeWhile Char.isDigit
  d ≠ [] &&
  (let r := (afterNumTail (s.drop d.length)).dropWhile isPySpace
   startsWithL "mM".toList r || startsWithL "µM".toList r ||
   startsWithL "mg/L".toList r || startsWithL "g/L".toList r ||
   startsWithL "pH".toList r)

/-- The `generic_terms` penalty list of line 160. -/
def genericTerms : List String :=
  ["paper", "study", "review", "article", "here we", "in this"]

/-- The `scientific_verbs` bonus list of lines 165-169. -/
def scientificVerbs : List String :=
  ["showed", "demonstrated", "observed", "found", "indicated",
   "revealed", "exhibited", "contained", "produced", "reduced",
   "oxidized", "catalyzed", "dominated", "enriched"]

/-- `sentences.index(sentence)`: index of the first equal element. -/
def firstIndexOf (x : List Char) : List (List Char) → Nat
  | [] => 0
  | y :: rest => if y = x then 0 else firstIndexOf x rest + 1

/-- The per-sentence score of lines 127-171. `none` models the `IndexError`
raised by `organism_parts[0]` when the topic string is whitespace-only (so
`organism.lower().split()` is empty) and the sentence does not contain the
topic string itself. -/
def sentenceScore (filtered : List (List Char)) (organismLower : List Char)
    (parts : List (List Char)) (contextKeywords : List (List Char))
    (sentence : List Char) : Option ℤ :=
  let sl := pyLower sentence
  let base : Option ℤ :=
    if containsSub organismLower sl then some 50
    else
      match parts with
      | [] => none
      | p0 :: restParts =>
        some ((if containsSub p0 sl then 20 else 0) +
          (match restParts with
            | p1 :: _ => if containsSub p1 sl then 10 else 0
            | [] => 0))
  match base with
  | none => none
  | some s0 =>
    let s1 := s0 + contextKeywords.foldl
      (fun acc kw => acc + (if containsSub (pyLower kw) sl then 10 else 0)) 0
    let s2 := s1 + (if searchAnywhere matchPercentAt sentence then (5 : ℤ) else 0)
    let s3 := s2 + (if searchAnywhere matchUnitAt sentence then (5 : ℤ) else 0)
    let idx := firstIndexOf sentence filtered
    let s4 := s3 + (if 0 < idx ∧ idx < filtered.length - 1 then (3 : ℤ) else 0)
    let s5 := s4 - (if genericTerms.any (fun t => containsSub t.toList sl) then 10 else 0)
    let s6 := s5 + (if scientificVerbs.any (fun v => containsSub v.toList sl)
      then (5 : ℤ) else 0)
    some s6

/-- One loop iteration of lines 127-174: score the sentence, keep it exactly
when the score is strictly positive. Outer `none` is a raised `IndexError`;
inner `none` is a dropped sentence. -/
def scoreSentence (filtered : List (List Char)) (organismLower : List Char)
    (parts : List (List Char)) (contextKeywords : List (List Char))
    (sentence : List Char) : Option (Option (List Char × ℤ)) :=
  match sentenceScore filtered organismLower parts contextKeywords sentence with
  | none => none
  | some sc => some (if 0 < sc then some (sentence, sc) else none)

/-- Sequence a fallible map over a list (a raised exception aborts the whole
loop). -/
def mapOption {α β : Type} (f : α → Option β) : List α → Option (List β)
  | [] => some []
  | x :: xs =>
    match f x with
    | none => none
    | some y =>
      match mapOption f xs with
      | none => none
      | some ys => some (y :: ys)

/-- `IntelligentSnippetFixer.extract_relevant_sentences` (lines 59-179):
mask the abbreviations `sp.`, `nov.`, `et al.`; split into sentences;
restore (with the `nov__` no-op); drop excluded and out-of-length sentences;
score each survivor, keeping strictly positive scores; sort by score,
highest first. Python's `list.sort(key=..., reverse=True)` is stable, and a
stable sort by a total preorder has a unique output, so the stable
`insertionSort` below (which keeps equal-score sentences in input order)
computes exactly the sorted list of the source. `none` models a raised
`IndexError`. -/
def extract_relevant_sentences (abstract : List Char) (organism : List Char)
    (contextKeywords : List (List Char)) : Option (List (List Char × ℤ)) :=
  if abstract = [] then some []
  else
    let masked := replaceAll "et al.".toList "et al__".toList
      (replaceAll "nov.".toList "nov__".toList
        (replaceAll "sp.".toList "sp__".toList abstract))
    let restored := (reSplitSentences masked).map restoreSentence
    let filtered := restored.filter (fun s =>
      !excludedSentence (pyLower s) && (50 ≤ s.length && s.length ≤ 500))
    if filtered = [] then some []
    else
      let organismLower := pyLower organism
      let parts := pySplitWs organismLower
      match mapOption (scoreSentence filtered organismLower parts contextKeywords)
          filtered with
      | none => none
      | some scored =>
        some (List.insertionSort (fun p q : List Char × ℤ => q.2 ≤ p.2)
          (scored.filterMap id))

/-- A ranked snippet suggestion with its derived confidence tier. -/
structure SnippetSuggestion where
  suggestedSnippets : List (List Char)
  confidence : String
deriving DecidableEq

/-- `IntelligentSnippetFixer.suggest_snippets_for_evidence` (lines 181-248):
the abstract parameter is the outcome of the routed fetch (`none`/empty when
no abstract could be fetched); on a fetched abstract, extract and rank
sentences, return `None` when nothing survives, otherwise the top three
sentences with confidence `high` for a top score ≥ 5.0 (50 tenths),
`medium` for ≥ 2.0 (20 tenths), else `low`. Outer `none` is a raised
`IndexError`. -/
def suggest_snippets_for_evidence (abstract : Option (List Char))
    (organism : List Char) (contextKeywords : List (List Char)) :
    Option (Option SnippetSuggestion) :=
  match abstract with
  | none => some none
  | some ab =>
    if ab = [] then some none
    else
      match extract_relevant_sentences ab organism contextKeywords with
      | none => none
      | some scored =>
        if scored = [] then some none
        else
          some (some
            { suggestedSnippets := (scored.take 3).map Prod.fst
              confidence :=
                if 50 ≤ (scored.headD ([], 0)).2 then "high"
                else if 20 ≤ (scored.headD ([], 0)).2 then "medium"
                else "low" })

/-! ### Facts about the Snippet Extractor/Scorer (claims C5, C6, C10) -/

lemma containsSub_nil (s : List Char) : containsSub [] s = true := by
  cases s <;> simp [containsSub, startsWithL]

lemma mapOption_mem {α β : Type} (f : α → Option β) :
    ∀ (l : List α) (out : List β), mapOption f l = some out →
      ∀ y ∈ out, ∃ x ∈ l, f x = some y := by
  intro l
  induction l with
  | nil =>
    intro out h y hy
    simp [mapOption] at h
    subst h
    simp at hy
  | cons x xs ih =>
    intro out h y hy
    unfold mapOption at h
    cases hf : f x with
    | none => rw [hf] at h; exact absurd h (by simp)
    | some y0 =>
      rw [hf] at h
      cases hm : mapOption f xs with
      | none => rw [hm] at h; exact absurd h (by simp)
      | some ys =>
        rw [hm] at h
        obtain rfl := Option.some.inj h
        rcases List.mem_cons.mp hy with rfl | hmem
        · exact ⟨x, List.mem_cons_self x xs, hf⟩
        · obtain ⟨x', hx', hfx'⟩ := ih ys hm y hmem
          exact ⟨x', List.mem_cons_of_mem x hx', hfx'⟩

lemma mapOption_isSome {α β : Type} (f : α → Option β) :
    ∀ (l : List α), (∀ x ∈ l, (f x).isSome = true) →
      ∃ out, mapOption f l = some out := by
  intro l
  induction l with
  | nil => exact fun _ => ⟨[], rfl⟩
  | cons x xs ih =>
    intro hall
    have hx := hall x (List.mem_cons_self x xs)
    cases hf : f x with
    | none => rw [hf] at hx; simp at hx
    | some y =>
      obtain ⟨ys, hys⟩ := ih (fun z hz => hall z (List.mem_cons_of_mem x hz))
      exact ⟨y :: ys, by simp [mapOption, hf, hys]⟩

lemma scoreSentence_pos (fl : List (List Char)) (ol : List Char)
    (parts ck : List (List Char)) (s : List Char) (p : List Char × ℤ)
    (h : scoreSentence fl ol parts ck s = some (some p)) : 0 < p.2 := by
  unfold scoreSentence at h
  cases hs : sentenceScore fl ol parts ck s with
  | none => rw [hs] at h; exact absurd h (by simp)
  | some sc =>
    rw [hs] at h
    obtain h' := Option.some.inj h
    split at h'
    · obtain rfl := Option.some.inj h'
      assumption
    · exact absurd h' (by simp)

lemma scoreSentence_isSome (fl : List (List Char)) (organism : List Char)
    (ck : List (List Char)) (s : List Char)
    (horg : organism = [] ∨ pySplitWs (pyLower organism) ≠ []) :
    (scoreSentence fl (pyLower organism) (pySplitWs (pyLower organism)) ck s).isSome
      = true := by
  unfold scoreSentence
  have hbase : (sentenceScore fl (pyLower organism)
      (pySplitWs (pyLower organism)) ck s).isSome = true := by
    unfold sentenceScore
    by_cases hc : containsSub (pyLower organism) (pyLower s) = true
    · simp [hc]
    · rcases horg with rfl | hne
      · exact absurd (containsSub_nil (pyLower s)) (by simpa [pyLower] using hc)
      · cases hp : pySplitWs (pyLower organism) with
        | nil => exact absurd hp hne
        | cons p0 restParts => simp [hc, hp]
  cases hs : sentenceScore fl (pyLower organism) (pySplitWs (pyLower organism)) ck s with
  | none => rw [hs] at hbase; simp at hbase
  | some sc => simp

instance : IsTotal (List Char × ℤ) (fun p q => q.2 ≤ p.2) :=
  ⟨fun a b => le_total b.2 a.2⟩

instance : IsTrans (List Char × ℤ) (fun p q => q.2 ≤ p.2) :=
  ⟨fun _ _ _ hab hbc => le_trans hbc hab⟩

/-- C10: every `(sentence, score)` pair returned by the sentence extractor
has a strictly positive score — a sentence scoring zero or negative is
dropped entirely rather than ranked last (so the result can be empty even
when sentences survive the length and boilerplate filters). -/
theorem extract_relevant_sentences_scores_positive (abstract organism : List Char)
    (ck : List (List Char)) (scored : List (List Char × ℤ))
    (h : extract_relevant_sentences abstract organism ck = some scored) :
    ∀ p ∈ scored, 0 < p.2 := by
  intro p hp
  simp only [extract_relevant_sentences] at h
  split at h
  · obtain rfl := Option.some.inj h
    simp at hp
  · split at h
    · obtain rfl := Option.some.inj h
      simp at hp
    · split at h
      · exact absurd h (by simp)
      · rename_i scoredl hmap
        obtain rfl := Option.some.inj h
        rw [List.mem_insertionSort, List.mem_filterMap] at hp
        obtain ⟨op, hop, hid⟩ := hp
        simp only [id] at hid
        subst hid
        obtain ⟨x, _, hsc⟩ := mapOption_mem _ _ _ hmap (some p) hop
        exact scoreSentence_pos _ _ _ _ _ _ hsc

set_option maxRecDepth 8000 in
/-- Witness for C10 at a concrete abstract: the single surviving sentence
scores 5.5 points (55 tenths: organism match 5.0 plus result-verb 0.5),
which is strictly positive. -/
theorem extract_relevant_sentences_scores_positive_witness :
    extract_relevant_sentences
      "Geobacter showed iron reduction in acidic mine drainage systems".toList
      "Geobacter".toList []
      = some [("Geobacter showed iron reduction in acidic mine drainage systems".toList, 55)] ∧
    ∀ p ∈ [("Geobacter showed iron reduction in acidic mine drainage systems".toList,
      (55 : ℤ))], 0 < p.2 :=
  ⟨by decide,
    extract_relevant_sentences_scores_positive
      "Geobacter showed iron reduction in acidic mine drainage systems".toList
      "Geobacter".toList []
      [("Geobacter showed iron reduction in acidic mine drainage systems".toList, 55)]
      (by decide)⟩

set_option maxRecDepth 8000 in
/-- C6 code bug: the restoration step of `extract_relevant_sentences`
(intelligent_snippet_fixer.py line 88) replaces `nov__` with `nov__`
instead of `nov.`, so the masking of `nov.` (line 83) is never undone: on
an abstract containing `nov.`, the extractor (and hence
`suggest_snippets_for_evidence`) returns a suggestion containing the
artifact `nov__`, whose whitespace-normalized text is not a contiguous
substring of the source abstract (`nov__` never occurs in the source). -/
theorem extract_returns_unrestored_nov_masking :
    extract_relevant_sentences
      "Methanobacterium subterraneum sp. nov. was isolated from deep granitic groundwater and it grows fast".toList
      "Methanobacterium".toList []
      = some [("Methanobacterium subterraneum sp. nov__ was isolated from deep granitic groundwater and it grows fast".toList, 50)] ∧
    suggest_snippets_for_evidence
      (some "Methanobacterium subterraneum sp. nov. was isolated from deep granitic groundwater and it grows fast".toList)
      "Methanobacterium".toList []
      = some (some
        ⟨["Methanobacterium subterraneum sp. nov__ was isolated from deep granitic groundwater and it grows fast".toList],
          "high"⟩) ∧
    containsSub
      (wsNormalize "Methanobacterium subterraneum sp. nov__ was isolated from deep granitic groundwater and it grows fast".toList)
      (wsNormalize "Methanobacterium subterraneum sp. nov. was isolated from deep granitic groundwater and it grows fast".toList)
      = false ∧
    containsSub "nov__".toList
      "Methanobacterium subterraneum sp. nov. was isolated from deep granitic groundwater and it grows fast".toList
      = false :=
  ⟨by decide, by decide, by decide, by decide⟩

lemma extract_some_sorted (abstract organism : List Char) (ck : List (List Char))
    (horg : organism = [] ∨ pySplitWs (pyLower organism) ≠ []) :
    ∃ scored, extract_relevant_sentences abstract organism ck = some scored ∧
      scored.Sorted (fun p q : List Char × ℤ => q.2 ≤ p.2) := by
  simp only [extract_relevant_sentences]
  split
  · exact ⟨[], rfl, List.sorted_nil⟩
  · split
    · exact ⟨[], rfl, List.sorted_nil⟩
    · rename_i hab hfl
      obtain ⟨out, hout⟩ := mapOption_isSome _ _
        (fun x _ => scoreSentence_isSome _ organism ck x horg)
      rw [hout]
      exact ⟨_, rfl, List.sorted_insertionSort _ _⟩

set_option maxRecDepth 8000 in
/-- C5 counterexample: for a whitespace-only topic string and an abstract
whose surviving sentence does not contain that string,
`organism_parts[0]` is evaluated on an empty list and the suggestion
operation raises `IndexError` instead of returning suggestions. -/
theorem suggest_crashes_on_whitespace_topic :
    suggest_snippets_for_evidence
      (some "aaaaaaaaaaaaaaaaaaaaaaaaaaaaaaaaaaaaaaaaaaaaaaaaaaaaaaaaaaaa".toList)
      "\t".toList [] = none := by decide

/-- C5 (amended): for every source text, context keyword list, and topic
string that is empty or has a non-whitespace character (so that the genus
lookup `organism_parts[0]` cannot raise), the suggestion operation returns
normally; any returned suggestion object carries at most 3 suggestions,
they are the first three of the extractor's list sorted by non-increasing
score, and the confidence is `high` exactly when the top score is ≥ 5.0
(50 tenths), `medium` when ≥ 2.0 and < 5.0, and `low` otherwise. -/
theorem suggest_returns_top3_ranked (abstract : Option (List Char))
    (organism : List Char) (ck : List (List Char))
    (horg : organism = [] ∨ pySplitWs (pyLower organism) ≠ []) :
    ∃ r, suggest_snippets_for_evidence abstract organism ck = some r ∧
      ∀ sg, r = some sg →
        sg.suggestedSnippets.length ≤ 3 ∧
        ∃ ab scored, abstract = some ab ∧
          extract_relevant_sentences ab organism ck = some scored ∧
          scored.Sorted (fun p q : List Char × ℤ => q.2 ≤ p.2) ∧
          sg.suggestedSnippets = (scored.take 3).map Prod.fst ∧
          sg.confidence = (if 50 ≤ (scored.headD ([], 0)).2 then "high"
            else if 20 ≤ (scored.headD ([], 0)).2 then "medium" else "low") := by
  cases abstract with
  | none => exact ⟨none, rfl, fun sg h => by cases h⟩
  | some ab =>
    obtain ⟨scored, hext, hsort⟩ := extract_some_sorted ab organism ck horg
    unfold suggest_snippets_for_evidence
    dsimp only
    by_cases hab : ab = []
    · rw [if_pos hab]
      exact ⟨none, rfl, fun sg h => by cases h⟩
    · rw [if_neg hab, hext]
      dsimp only
      by_cases hsc : scored = []
      · rw [if_pos hsc]
        exact ⟨none, rfl, fun sg h => by cases h⟩
      · rw [if_neg hsc]
        refine ⟨_, rfl, ?_⟩
        intro sg h
        obtain rfl := Option.some.inj h
        constructor
        · simp only [List.length_map, List.length_take]
          exact min_le_left _ _
        · exact ⟨ab, scored, rfl, hext, hsort, rfl, rfl⟩

set_option maxRecDepth 8000 in
/-- Witness for the amended C5 theorem at a concrete abstract and topic. -/
theorem suggest_returns_top3_ranked_witness :
    ("Geobacter".toList = [] ∨ pySplitWs (pyLower "Geobacter".toList) ≠ []) ∧
    ∃ r, suggest_snippets_for_evidence
        (some "Geobacter showed iron reduction in acidic mine drainage systems".toList)
        "Geobacter".toList [] = some r ∧
      ∀ sg, r = some sg →
        sg.suggestedSnippets.length ≤ 3 ∧
        ∃ ab scored,
          (some "Geobacter showed iron reduction in acidic mine drainage systems".toList
            : Option (List Char)) = some ab ∧
          extract_relevant_sentences ab "Geobacter".toList [] = some scored ∧
          scored.Sorted (fun p q : List Char × ℤ => q.2 ≤ p.2) ∧
          sg.suggestedSnippets = (scored.take 3).map Prod.fst ∧
          sg.confidence = (if 50 ≤ (scored.headD ([], 0)).2 then "high"
            else if 20 ≤ (scored.headD ([], 0)).2 then "medium" else "low") :=
  ⟨Or.inr (by decide),
    suggest_returns_top3_ranked
      (some "Geobacter showed iron reduction in acidic mine drainage systems".toList)
      "Geobacter".toList [] (Or.inr (by decide))⟩

/-! ### Fetch Cascade Controller (claim C9) -/

/-- One external source tier of the PDF fetch cascade, named as in the
`tier_order` of `scripts/test_pdf_fetching.py` (lines 214-225). -/
inductive Tier where
  | publisher
  | pmc
  | unpaywall
  | semanticScholar
  | fallbackMirror
  | webSearch
deriving DecidableEq

/-- Modelled from the spec: `EnhancedLiteratureFetcher.fetch_pdf_url` (module
`communitymech.literature_enhanced`) is not under src/ — only its callers and
the test harness `scripts/test_pdf_fetching.py` are. Spec section 4.3 fixes
the priority order, with the fallback-mirror tier present only when
explicitly enabled: (1) publisher URL pattern keyed by DOI prefix, (2)
open-repository mirror (PubMed Central), (3) open-access location index
(Unpaywall), (4) scholarly-graph metadata index (Semantic Scholar), (5)
configurable fallback mirror hosts, (6) generic web search. -/
def tierOrder (useFallback : Bool) : List Tier :=
  [Tier.publisher, Tier.pmc, Tier.unpaywall, Tier.semanticScholar] ++
    (if useFallback then [Tier.fallbackMirror] else []) ++ [Tier.webSearch]

/-- Modelled from the spec: the cascade loop of `fetch_pdf_url` — try each
tier in order, stop at the first tier yielding a PDF URL. Returns the
result (URL and the tier that produced it, the `resolved_tier`) and the
list of tiers actually invoked. -/
def cascadeRun (attempt : Tier → Option (List Char)) :
    List Tier → Option (List Char × Tier) × List Tier
  | [] => (none, [])
  | t :: rest =>
    match attempt t with
    | some url => (some (url, t), [t])
    | none =>
      let r := cascadeRun attempt rest
      (r.1, t :: r.2)

/-- Modelled from the spec: `resolve` for one reference under a given tier
configuration. -/
def resolveCascade (attempt : Tier → Option (List Char)) (useFallback : Bool) :
    Option (List Char × Tier) × List Tier :=
  cascadeRun attempt (tierOrder useFallback)

lemma cascadeRun_first_success (attempt : Tier → Option (List Char))
    (hi : Tier) (u : List Char) (hhi : attempt hi = some u) :
    ∀ pre post, (∀ t ∈ pre, attempt t = none) →
      cascadeRun attempt (pre ++ hi :: post) = (some (u, hi), pre ++ [hi]) := by
  intro pre
  induction pre with
  | nil =>
    intro post _
    simp [cascadeRun, hhi]
  | cons t ts ih =>
    intro post hall
    have ht : attempt t = none := hall t (List.mem_cons_self t ts)
    have := ih post (fun x hx => hall x (List.mem_cons_of_mem t hx))
    simp [cascadeRun, ht, this]

/-- C9: the cascade attempts its source adapters in the fixed priority order
publisher → PMC mirror → Unpaywall → Semantic Scholar → fallback mirrors
(present only when explicitly enabled) → web search, stopping at the first
success; whenever every tier before `hi` fails and `hi` succeeds, `resolve`
reports `resolved_tier = hi` and never invokes any tier `lo` listed after
`hi` — in particular a reference resolvable by both a higher- and a
lower-priority tier resolves at the higher one. -/
theorem resolveCascade_priority :
    tierOrder true = [Tier.publisher, Tier.pmc, Tier.unpaywall,
      Tier.semanticScholar, Tier.fallbackMirror, Tier.webSearch] ∧
    tierOrder false = [Tier.publisher, Tier.pmc, Tier.unpaywall,
      Tier.semanticScholar, Tier.webSearch] ∧
    ∀ (attempt : Tier → Option (List Char)) (useFallback : Bool)
      (pre post : List Tier) (hi lo : Tier) (u : List Char),
      tierOrder useFallback = pre ++ hi :: post →
      (∀ t ∈ pre, attempt t = none) →
      attempt hi = some u →
      lo ∈ post →
      (resolveCascade attempt useFallback).1 = some (u, hi) ∧
      lo ∉ (resolveCascade attempt useFallback).2 := by
  refine ⟨rfl, rfl, ?_⟩
  intro attempt useFallback pre post hi lo u horder hpre hhi hlo
  have hrun := cascadeRun_first_success attempt hi u hhi pre post hpre
  have hres : resolveCascade attempt useFallback = (some (u, hi), pre ++ [hi]) := by
    rw [resolveCascade, horder, hrun]
  rw [hres]
  refine ⟨rfl, ?_⟩
  have hnodup : (tierOrder useFallback).Nodup := by
    cases useFallback <;> decide
  rw [horder] at hnodup
  intro hmem
  rcases List.mem_append.mp hmem with hmem | hmem
  · have : lo ∈ hi :: post := List.mem_cons_of_mem hi hlo
    exact (List.disjoint_of_nodup_append hnodup) hmem this
  · obtain rfl := List.mem_singleton.mp hmem
    exact (List.Nodup.of_append_right hnodup).not_mem (by exact hlo) |>.elim

/-- Witness for C9: with fallback mirrors enabled, a reference resolvable at
both the PMC tier and the Unpaywall tier resolves at PMC, and the Unpaywall
tier is never invoked. -/
theorem resolveCascade_priority_witness :
    (resolveCascade
      (fun t => if t = Tier.pmc ∨ t = Tier.unpaywall then some ['u'] else none)
      true).1 = some (['u'], Tier.pmc) ∧
    Tier.unpaywall ∉ (resolveCascade
      (fun t => if t = Tier.pmc ∨ t = Tier.unpaywall then some ['u'] else none)
      true).2 :=
  resolveCascade_priority.2.2
    (fun t => if t = Tier.pmc ∨ t = Tier.unpaywall then some ['u'] else none)
    true [Tier.publisher]
    [Tier.unpaywall, Tier.semanticScholar, Tier.fallbackMirror, Tier.webSearch]
    Tier.pmc Tier.unpaywall ['u'] rfl
    (by intro t ht; simp at ht; subst ht; rfl)
    (by rfl) (by simp)
